import Mathlib

/-!
# gawa: the webhook relay handler and its admission gate

A shallow embedding of `main.go`: the `notification` record, the request
`handler` (lines 121-212) and the semaphore wrapper `maxClientsFunc`
(lines 110-119), followed by the properties proved about them.

External collaborators (encoding/json, text/template, net/http, time, fmt's
quoting verb) are fields of `Env`, and so is the point at which the render
goroutine's store into the shared variable `err` lands among the handler's
reads of it; everything the handler does to the outside world is recorded, in
program order, in the list of `Event`s it returns.
-/

namespace Gawa

/-! ## Data model -/

/-- The constant `supportedWebhookVersion` (main.go line 24). -/
def supportedWebhookVersion : String := "4"

/-- The layout constant `time.RFC3339` of the Go standard library. -/
def RFC3339 : String := "2006-01-02T15:04:05Z07:00"

/-- The constant `http.StatusBadRequest`. -/
def StatusBadRequest : Nat := 400

/-- The constant `http.StatusInternalServerError`. -/
def StatusInternalServerError : Nat := 500

/-- The status a caller sees when the handler never writes a header. -/
def StatusOK : Nat := 200

/-- A `time.Time` value, kept as an instant (nanoseconds relative to the epoch). -/
structure Time where
  unixNano : Int
  deriving DecidableEq, Repr

/-- One element of `notification.Alerts` (main.go lines 216-223). -/
structure Alert where
  Annotations : List (String × String)
  EndsAt : Time
  GeneratorURL : String
  Labels : List (String × String)
  StartsAt : Time
  Status : String
  deriving DecidableEq, Repr

/-- The struct `notification` (main.go lines 215-235). -/
structure notification where
  Alerts : List Alert
  CommonAnnotations : List (String × String)
  CommonLabels : List (String × String)
  ExternalURL : String
  GroupLabels : List (String × String)
  Receiver : String
  Status : String
  Version : String
  GroupKey : String
  Timestamp : String
  deriving DecidableEq, Repr

/-- An `io.ReadCloser` seen through `ioutil.ReadAll`: the bytes it yields and
the error, if any, that ends the read. -/
structure ReadCloser where
  data : String
  err : Option String
  deriving DecidableEq, Repr

/-- The function `ioutil.ReadAll`: returns the bytes read and the error. -/
def ReadAll (r : ReadCloser) : String × Option String := (r.data, r.err)

/-- The inbound `*http.Request`, reduced to the field the handler reads:
`Body` is `none` when `r.Body == nil`. -/
structure Request where
  Body : Option ReadCloser
  deriving DecidableEq, Repr

/-- The body handed to `http.NewRequest`: the in-memory buffer `&tpl`
(buffered mode) or the read end of the pipe (streamed mode), each with the
bytes a reader obtains from it. -/
inductive ReqBody where
  | buffer (content : String)
  | pipeReader (content : String)
  deriving DecidableEq, Repr

/-- The bytes a reader of the request body obtains. -/
def ReqBody.bytes : ReqBody → String
  | .buffer c => c
  | .pipeReader c => c

/-- The outbound `*http.Request` built by the handler. -/
structure OutRequest where
  Method : String
  URL : String
  Header : List (String × String)
  Body : ReqBody
  deriving DecidableEq, Repr

/-- The downstream `*http.Response`: status code and body reader. -/
structure Response where
  StatusCode : Nat
  Body : ReadCloser
  deriving DecidableEq, Repr

/-- A parsed `*template.Template`: executing it against a record emits a
sequence of writes and then ends with an error or without one. The engine is
a deterministic function of the record. -/
structure Template where
  exec : notification → List String × Option String

/-- The three places after the goroutine is started (line 164) where the
handler stores into `err` and then reads it. -/
inductive Stage where
  /-- store at line 174 or 176 (`http.NewRequest`), reads at lines 178-181 -/
  | request
  /-- store at line 188 (`http.DefaultClient.Do`), reads at lines 189-192 -/
  | transport
  /-- store at line 196 (`ioutil.ReadAll`), reads at lines 198-201 -/
  | body
  deriving DecidableEq, Repr

/-- The three reads of `err` that follow one store of the handler: the test
`err != nil`, the call `err.Error()` and the call `log.Print(err)`. -/
inductive Slot where
  | test
  | text
  | print
  deriving DecidableEq, Repr

/-- The order of the three reads in the program text. -/
def Slot.rank : Slot → Nat
  | .test => 0
  | .text => 1
  | .print => 2

/-- The store `err = tmpl.Execute(pipeWriter, &msg)` of the render goroutine
(line 165) at a point where the handler can read it: it lands after the
handler's own store of `stage` and just before the read `slot`, with the value
the goroutine's execution returned (nil, the engine's error, or the error of a
write to the pipe whose read end has been closed). -/
structure GoStore where
  stage : Stage
  slot : Slot
  value : Option String
  deriving DecidableEq, Repr

/-- The process-wide variables of main.go (lines 26-34) the handler reads, the
external collaborators it calls, and the interleaving with the render
goroutine. -/
structure Env where
  /-- the variable `disableChunked` -/
  disableChunked : Bool
  /-- the variable `postTemplate` -/
  postTemplate : String
  /-- the variable `targetURL` -/
  targetURL : String
  /-- the variable `versionString` -/
  versionString : String
  /-- the call `json.Unmarshal(b, &msg)` on a zero-valued `msg` -/
  Unmarshal : String → Except String notification
  /-- the call `time.Now()` -/
  Now : Time
  /-- the method `Time.Format` -/
  Format : Time → String → String
  /-- the call `template.New(path.Base(p)).Funcs(sprig.TxtFuncMap()).ParseFiles(p)`;
  `none` when it returns a nil template and an error -/
  ParseFiles : String → Option Template
  /-- the error of `url.Parse` inside `http.NewRequest`, if any -/
  ParseURL : String → Option String
  /-- the call `http.DefaultClient.Do(req)` -/
  Do : OutRequest → Except String Response
  /-- the verb `%q` of package fmt applied to a string -/
  Quote : String → String
  /-- where the render goroutine's store into `err` lands; `none` when the
  handler overwrites it before reading `err`, or has returned before it -/
  goStore : Option GoStore

/-- The three Prometheus counters (main.go lines 36-50). -/
inductive Counter where
  | notificationsErrored
  | notificationsInvalid
  | notificationsReceived
  deriving DecidableEq, Repr

/-- The writer a template execution is directed to. -/
inductive Sink where
  | pipeWriter
  | tpl
  deriving DecidableEq, Repr

/-- The resources closed by the handler's deferred calls. -/
inductive Closer where
  | requestBody
  | pipeReader
  | responseBody
  deriving DecidableEq, Repr

/-- What the handler does to the outside world. -/
inductive Event where
  /-- the call `c.Inc()` -/
  | Inc (c : Counter)
  /-- the call `http.Error(w, text, code)` -/
  | Error (text : String) (code : Nat)
  /-- the call `log.Print(err)` -/
  | Print (text : String)
  /-- the call `tmpl.Execute(dst, &msg)` -/
  | Execute (dst : Sink) (msg : notification)
  /-- the call `http.DefaultClient.Do(req)` -/
  | Do (req : OutRequest)
  /-- a deferred `Close()` -/
  | Close (c : Closer)
  /-- a nil-pointer dereference in the render goroutine: the process dies -/
  | crash
  /-- a nil dereference in the handler itself: the call unwinds through its
  deferred calls -/
  | panic
  deriving DecidableEq, Repr

/-! ## Writers and template execution -/

/-- The loop of writes made by a template execution: each chunk goes to the
writer; the first failing write ends the execution with that error, otherwise
the execution ends with the engine's own result. -/
def writeChunks {σ : Type} (write : σ → String → σ × Option String) :
    σ → List String → Option String → σ × Option String
  | w, [], e => (w, e)
  | w, c :: cs, e =>
    match write w c with
    | (w', some we) => (w', some we)
    | (w', none) => writeChunks write w' cs e

/-- The method `(*Template).Execute(wr, data)`. -/
def Template.Execute {σ : Type} (t : Template) (write : σ → String → σ × Option String)
    (w : σ) (data : notification) : σ × Option String :=
  writeChunks write w (t.exec data).1 (t.exec data).2

/-- The method `(*bytes.Buffer).Write`: appends and never fails. -/
def Buffer.Write (buf : String) (p : String) : String × Option String := (buf ++ p, none)

/-- An `io.Pipe`: the bytes written so far, all of which the read end
delivers in order, and whether the read end has been closed. -/
structure Pipe where
  data : String
  rclosed : Bool
  deriving DecidableEq, Repr

/-- The call `io.Pipe()`. -/
def Pipe.new : Pipe := ⟨"", false⟩

/-- The method `(*PipeWriter).Write`: fails once the read end is closed. -/
def Pipe.Write (p : Pipe) (b : String) : Pipe × Option String :=
  if p.rclosed then (p, some "io: read/write on closed pipe")
  else (⟨p.data ++ b, p.rclosed⟩, none)

/-- The method `Header.Set`. -/
def Header.Set (h : List (String × String)) (key value : String) : List (String × String) :=
  h.filter (fun kv => kv.1 != key) ++ [(key, value)]

/-- The function `http.NewRequest(method, url, body)`: fails when the URL
does not parse. -/
def NewRequest (env : Env) (method url : String) (body : ReqBody) : Except String OutRequest :=
  match env.ParseURL url with
  | some e => .error e
  | none => .ok ⟨method, url, [], body⟩

/-! ## The handler -/

/-- The text of the error built at main.go line 152. -/
def versionError (env : Env) (v : String) : String :=
  "do not understand webhook version " ++ env.Quote v ++ ", only version " ++
    env.Quote supportedWebhookVersion ++ " is supported"

/-- The text of the error built at main.go line 207. -/
def statusError (env : Env) (code : Nat) (body : String) : String :=
  "POST to rest target on " ++ env.Quote env.targetURL ++ " returned HTTP " ++
    toString code ++ ":  " ++ body

/-- A read of the shared variable `err` by the handler: `own` is the value of
the handler's last store; the read returns the goroutine's value instead when
the goroutine's store landed after that store and not after this read. -/
def readErr (env : Env) (own : Option String) (stage : Stage) (slot : Slot) : Option String :=
  match env.goStore with
  | some g => if g.stage = stage ∧ g.slot.rank ≤ slot.rank then g.value else own
  | none => own

/-- What one block `if err != nil { notificationsErrored.Inc();
http.Error(w, err.Error(), http.StatusInternalServerError); log.Print(err);
return }` does, depending on what its three reads of `err` return. -/
inductive Block where
  /-- the test finds `err` nil: the block is not entered -/
  | skipped
  /-- the test finds `err` non-nil and `err.Error()` finds it nil: the call
  panics after the increment -/
  | panicked
  /-- the error is written with the text `err.Error()` returned and logged
  with the text `log.Print(err)` printed -/
  | reported (text printed : String)
  deriving DecidableEq, Repr

/-- The block of lines 178-183, 189-194 and 198-203, after the handler stored
`own` into `err`. `log.Print` of a nil `err` prints `<nil>`. -/
def errBlock (env : Env) (own : Option String) (stage : Stage) : Block :=
  match readErr env own stage .test with
  | none => .skipped
  | some _ =>
    match readErr env own stage .text with
    | none => .panicked
    | some text => .reported text ((readErr env own stage .print).getD "<nil>")

/-- The function `handler` (main.go lines 121-212), as the list of its effects
in program order.

The variable `err` is shared with the render goroutine (lines 164-167), which
stores into it without synchronisation. The handler's reads of `err` after
line 164 go through `readErr`: each returns the handler's own last store
unless `env.goStore` places the goroutine's store between that store and the
read. A test that finds `err` nil although the call before it failed lets the
handler go on with a nil `req` or `resp`, which it dereferences. When
`ParseFiles` returns a nil template the goroutine dereferences it and the
process dies. -/
def handler (env : Env) (r : Request) : List Event :=
  .Inc .notificationsReceived ::
  match r.Body with
  | none =>
    let err := "got empty request body"
    [.Inc .notificationsInvalid, .Error err StatusBadRequest, .Print err]
  | some rBody =>
    match ReadAll rBody with
    | (_, some err) =>
      [.Inc .notificationsErrored, .Error err StatusInternalServerError, .Print err]
    | (b, none) =>
      -- defer r.Body.Close()
      match env.Unmarshal b with
      | .error err =>
        [.Inc .notificationsInvalid, .Error err StatusBadRequest, .Print err,
          .Close .requestBody]
      | .ok msg =>
        if msg.Version ≠ supportedWebhookVersion then
          let err := versionError env msg.Version
          [.Inc .notificationsInvalid, .Error err StatusBadRequest, .Print err,
            .Close .requestBody]
        else
          let msg := { msg with Timestamp := env.Format env.Now RFC3339 }
          match env.ParseFiles env.postTemplate with
          | none => [.crash]
          | some tmpl =>
            -- go func() { err = tmpl.Execute(pipeWriter, &msg); defer pipeWriter.Close() }()
            let pipe := (tmpl.Execute Pipe.Write Pipe.new msg).1
            -- defer pipeReader.Close()
            let rendered : List Event × ReqBody :=
              if env.disableChunked then
                -- err = tmpl.Execute(&tpl, &msg); the next line stores into err again
                let tpl := (tmpl.Execute Buffer.Write "" msg).1
                ([.Execute .tpl msg], .buffer tpl)
              else
                ([], .pipeReader pipe.data)
            .Execute .pipeWriter msg :: rendered.1 ++
            -- req, err = http.NewRequest("POST", targetURL, body)
            match NewRequest env "POST" env.targetURL rendered.2 with
            | .error err =>
              match errBlock env (some err) .request with
              | .reported text printed =>
                [.Inc .notificationsErrored, .Error text StatusInternalServerError,
                  .Print printed, .Close .pipeReader, .Close .requestBody]
              | .panicked =>
                [.Inc .notificationsErrored, .panic, .Close .pipeReader, .Close .requestBody]
              | .skipped =>
                -- req is nil: req.Header.Set dereferences it
                [.panic, .Close .pipeReader, .Close .requestBody]
            | .ok req =>
              match errBlock env none .request with
              | .reported text printed =>
                [.Inc .notificationsErrored, .Error text StatusInternalServerError,
                  .Print printed, .Close .pipeReader, .Close .requestBody]
              | .panicked =>
                [.Inc .notificationsErrored, .panic, .Close .pipeReader, .Close .requestBody]
              | .skipped =>
                let req := { req with Header := Header.Set req.Header "User-Agent" env.versionString }
                let req := { req with Header := Header.Set req.Header "Content-Type" "application/json" }
                .Do req ::
                -- resp, err := http.DefaultClient.Do(req)
                match env.Do req with
                | .error err =>
                  match errBlock env (some err) .transport with
                  | .reported text printed =>
                    [.Inc .notificationsErrored, .Error text StatusInternalServerError,
                      .Print printed, .Close .pipeReader, .Close .requestBody]
                  | .panicked =>
                    [.Inc .notificationsErrored, .panic, .Close .pipeReader,
                      .Close .requestBody]
                  | .skipped =>
                    -- resp is nil: resp.Body dereferences it
                    [.panic, .Close .pipeReader, .Close .requestBody]
                | .ok resp =>
                  match errBlock env none .transport with
                  | .reported text printed =>
                    [.Inc .notificationsErrored, .Error text StatusInternalServerError,
                      .Print printed, .Close .pipeReader, .Close .requestBody]
                  | .panicked =>
                    [.Inc .notificationsErrored, .panic, .Close .pipeReader,
                      .Close .requestBody]
                  | .skipped =>
                    -- body, err := ioutil.ReadAll(resp.Body); defer resp.Body.Close()
                    match errBlock env (ReadAll resp.Body).2 .body with
                    | .reported text printed =>
                      [.Inc .notificationsErrored, .Error text StatusInternalServerError,
                        .Print printed,
                        .Close .responseBody, .Close .pipeReader, .Close .requestBody]
                    | .panicked =>
                      [.Inc .notificationsErrored, .panic,
                        .Close .responseBody, .Close .pipeReader, .Close .requestBody]
                    | .skipped =>
                      if resp.StatusCode / 100 ≠ 2 then
                        let err := statusError env resp.StatusCode (ReadAll resp.Body).1
                        [.Inc .notificationsErrored, .Error err StatusInternalServerError,
                          .Print err,
                          .Close .responseBody, .Close .pipeReader, .Close .requestBody]
                      else
                        [.Close .responseBody, .Close .pipeReader, .Close .requestBody]

/-! ## Observations on a run of the handler -/

/-- How many times counter `c` is incremented in a run. -/
def incs (c : Counter) (t : List Event) : Nat :=
  t.countP (fun e => decide (e = .Inc c))

/-- The calls to `http.Error` made in a run, as (text, code) pairs. -/
def errorsWritten : List Event → List (String × Nat)
  | [] => []
  | .Error text code :: t => (text, code) :: errorsWritten t
  | _ :: t => errorsWritten t

/-- The HTTP status the caller sees when the handler returns: the code of the
first `http.Error`, or the implicit 200 when the handler writes nothing. -/
def statusSeen (t : List Event) : Nat :=
  match errorsWritten t with
  | [] => StatusOK
  | (_, code) :: _ => code

/-- The outbound requests issued in a run. -/
def requestsSent : List Event → List OutRequest
  | [] => []
  | .Do req :: t => req :: requestsSent t
  | _ :: t => requestsSent t

/-- The records handed to template executions in a run. -/
def recordsRendered : List Event → List notification
  | [] => []
  | .Execute _ msg :: t => msg :: recordsRendered t
  | _ :: t => recordsRendered t

/-- The call `h.ServeHTTP(w, r)` with `h = handler`: the run of the handler,
or `none` when the process dies before the call ends. A panic in the handler
itself ends the call, unwinding through the deferred calls of its callers. -/
def handler.ServeHTTP (env : Env) (r : Request) : Option (List Event) :=
  if Event.crash ∈ handler env r then none else some (handler env r)

/-! ## The admission gate -/

/-- Where the goroutine serving one request stands in the closure returned by
`maxClientsFunc` (main.go lines 113-118). -/
inductive Phase where
  /-- about to execute `sema <- struct{}{}` -/
  | atSend
  /-- token placed in the channel, executing `h.ServeHTTP(w, r)` -/
  | inH
  /-- `h` has returned, the deferred `<-sema` has not run yet -/
  | atRecv
  /-- the deferred `<-sema` has run and the closure has returned -/
  | returned
  deriving DecidableEq, Repr

/-- The state shared by the request goroutines: the number of tokens in the
channel `sema` and the phase of each request. -/
structure Gate where
  sema : Nat
  phase : List Phase
  deriving DecidableEq, Repr

/-- The state right after `make(chan struct{}, n)`, with `k` requests arriving. -/
def Gate.init (k : Nat) : Gate := ⟨0, List.replicate k .atSend⟩

/-- One atomic step of the goroutine serving request `i`. -/
inductive Action where
  /-- the send `sema <- struct{}{}` -/
  | send (i : Nat)
  /-- the call `h.ServeHTTP(w, r)`, from entry to return -/
  | serve (i : Nat)
  /-- the deferred receive `<-sema` -/
  | recv (i : Nat)
  deriving DecidableEq, Repr

/-- The request an action belongs to. -/
def Action.req : Action → Nat
  | .send i => i
  | .serve i => i
  | .recv i => i

/-- The function `maxClientsFunc(h, n)` (main.go lines 110-119) as a step
function over the channel of capacity `n`: a send completes only while the
channel holds fewer than `n` tokens, `h` runs between the send and the
deferred receive, and a receive completes only when a token is present.
`none` means the action cannot be taken in this state (the goroutine blocks,
or is not at that statement). -/
def maxClientsFunc {ρ α : Type} (h : ρ → Option α) (n : Nat) (reqs : List ρ)
    (s : Gate) : Action → Option Gate
  | .send i =>
    if s.phase[i]? = some .atSend ∧ s.sema < n then
      some ⟨s.sema + 1, s.phase.set i .inH⟩
    else none
  | .serve i =>
    match s.phase[i]?, reqs[i]? with
    | some .inH, some r =>
      if (h r).isSome then some ⟨s.sema, s.phase.set i .atRecv⟩ else none
    | _, _ => none
  | .recv i =>
    if s.phase[i]? = some .atRecv ∧ 0 < s.sema then
      some ⟨s.sema - 1, s.phase.set i .returned⟩
    else none

/-- Runs a schedule of actions; `none` when one of them cannot be taken. -/
def run (step : Gate → Action → Option Gate) : Gate → List Action → Option Gate
  | s, [] => some s
  | s, a :: as =>
    match step s a with
    | none => none
    | some s' => run step s' as

/-- The number of requests currently executing inside `h`. -/
def inside (ps : List Phase) : Nat := ps.countP (fun p => decide (p = .inH))

/-- The number of requests that have placed a token and not yet removed it. -/
def holding (ps : List Phase) : Nat :=
  ps.countP (fun p => decide (p = .inH ∨ p = .atRecv))

/-- The actions of request `i` in a schedule, in order. -/
def history (i : Nat) (as : List Action) : List Action :=
  as.filter (fun a => decide (a.req = i))

/-- The actions a request has taken when it stands at a given phase. -/
def script (i : Nat) : Option Phase → List Action
  | some .inH => [.send i]
  | some .atRecv => [.send i, .serve i]
  | some .returned => [.send i, .serve i, .recv i]
  | _ => []

/-- The bytes a template execution emits for a record: its writes, in order. -/
def output (t : Template) (data : notification) : String :=
  (t.exec data).1.foldr (fun c acc => c ++ acc) ""

/-- The text `sub` occurs in `text` as a contiguous run of characters. -/
def occursIn (sub text : String) : Prop := sub.data <:+: text.data

instance occursIn.decidable (sub text : String) : Decidable (occursIn sub text) := by
  unfold occursIn; infer_instance

/-! ## Concrete inputs

A small alert payload in the shape of the fixture of main_test.go, a decoder
that knows it, two templates and a downstream target with a fixed answer. -/

/-- A payload with the supported version and a client-supplied timestamp. -/
def payloadV4 : String :=
  "\x7b\"receiver\":\"alertmanager2es\",\"status\":\"firing\",\"version\":\"4\"," ++
    "\"@timestamp\":\"2001-02-03T04:05:06Z\"\x7d"

/-- A payload with another version. -/
def payloadV3 : String := "\x7b\"receiver\":\"alertmanager2es\",\"version\":\"3\"\x7d"

/-- A payload without a version field. -/
def payloadNoVersion : String := "\x7b\"receiver\":\"alertmanager2es\"\x7d"

/-- The zero value of `notification` with the given receiver, status, version
and timestamp. -/
def recordOf (receiver status version timestamp : String) : notification :=
  ⟨[], [], [], "", [], receiver, status, version, "", timestamp⟩

/-- A decoder for the sample payloads; empty input is rejected the way
encoding/json rejects it. -/
def sampleUnmarshal (b : String) : Except String notification :=
  if b = "" then .error "unexpected end of JSON input"
  else if b = payloadV4 then .ok (recordOf "alertmanager2es" "firing" "4" "2001-02-03T04:05:06Z")
  else if b = payloadV3 then .ok (recordOf "alertmanager2es" "" "3" "")
  else if b = payloadNoVersion then .ok (recordOf "alertmanager2es" "" "" "")
  else .error "invalid character looking for beginning of value"

/-- A template that renders the receiver and the timestamp. -/
def sampleTemplate : Template :=
  ⟨fun m => (["text: ", m.Receiver, " at ", m.Timestamp], none)⟩

/-- A template that parses but whose execution fails after its first writes. -/
def brokenTemplate : Template :=
  ⟨fun m => (["text: ", m.Receiver],
    some "template: rocketchat2.tmpl:3:14: executing at <.Foo>: cannot evaluate field Foo")⟩

/-- A configuration around the sample decoder: the delivery mode, the
template `ParseFiles` yields and the answer of the downstream target are
parameters; the goroutine's store into `err` is not read by the handler. -/
def sampleEnv (buffered : Bool) (t : Option Template) (answer : Except String Response) : Env where
  disableChunked := buffered
  postTemplate := "rocketchat2.tmpl"
  targetURL := "http://chat.example/hooks/1"
  versionString := "gawa undefined (go1.8)"
  Unmarshal := sampleUnmarshal
  Now := ⟨1486054273507955756⟩
  Format := fun _ _ => "2017-02-02T16:51:13Z"
  ParseFiles := fun _ => t
  ParseURL := fun _ => none
  Do := fun _ => answer
  Quote := fun q => "\"" ++ q ++ "\""
  goStore := none

/-- The inbound request carrying a payload. -/
def requestWith (payload : String) : Request := ⟨some ⟨payload, none⟩⟩

/-- The record the sample decoder yields for `payloadV4`, stamped by the handler. -/
def stampedRecord : notification :=
  recordOf "alertmanager2es" "firing" "4" "2017-02-02T16:51:13Z"

/-- The outbound request the handler builds under `sampleEnv` for a body. -/
def outboundWith (body : ReqBody) : OutRequest :=
  ⟨"POST", "http://chat.example/hooks/1",
    [("User-Agent", "gawa undefined (go1.8)"), ("Content-Type", "application/json")], body⟩

/-- The streamed configuration in which the target answers 200 before it has
consumed the request body: the transport closes the read end of the pipe, the
goroutine's execution ends with the error of its write, and its store into
`err` lands between line 196 and the test at line 198. -/
def racedEnv : Env :=
  { sampleEnv false (some sampleTemplate) (.ok ⟨200, ⟨"OK\n", none⟩⟩) with
    goStore := some ⟨.body, .test, some "io: read/write on closed pipe"⟩ }

/-- A downstream answer with a complete body. -/
def answered (code : Nat) (body : String) : Except String Response := .ok ⟨code, ⟨body, none⟩⟩

/-- A downstream answer whose body breaks off while it is read. -/
def answeredBroken (code : Nat) (partBody err : String) : Except String Response :=
  .ok ⟨code, ⟨partBody, some err⟩⟩

/-! ## Lemmas on writers and on the error text -/

theorem writeChunks_buffer (cs : List String) (acc : String) (e : Option String) :
    writeChunks Buffer.Write acc cs e = (acc ++ cs.foldr (fun c a => c ++ a) "", e) := by
  induction cs generalizing acc with
  | nil => simp [writeChunks]
  | cons c cs ih => simp [writeChunks, Buffer.Write, ih, String.append_assoc]

theorem writeChunks_pipe (cs : List String) (acc : String) (e : Option String) :
    writeChunks Pipe.Write ⟨acc, false⟩ cs e =
      (⟨acc ++ cs.foldr (fun c a => c ++ a) "", false⟩, e) := by
  induction cs generalizing acc with
  | nil => simp [writeChunks]
  | cons c cs ih => simp [writeChunks, Pipe.Write, ih, String.append_assoc]

theorem Execute_buffer (t : Template) (data : notification) :
    (t.Execute Buffer.Write "" data).1 = output t data := by
  simp [Template.Execute, writeChunks_buffer, output]

theorem Execute_pipe (t : Template) (data : notification) :
    (t.Execute Pipe.Write Pipe.new data).1.data = output t data := by
  simp [Template.Execute, Pipe.new, writeChunks_pipe, output]

theorem statusError_code (env : Env) (code : Nat) (body : String) :
    occursIn (toString code) (statusError env code body) := by
  unfold statusError occursIn
  refine ⟨("POST to rest target on " ++ env.Quote env.targetURL ++ " returned HTTP ").data,
    (":  " ++ body).data, ?_⟩
  simp [String.data_append, List.append_assoc]

theorem statusError_body (env : Env) (code : Nat) (body : String) :
    occursIn body (statusError env code body) := by
  unfold statusError occursIn
  refine ⟨("POST to rest target on " ++ env.Quote env.targetURL ++ " returned HTTP " ++
    toString code ++ ":  ").data, [], ?_⟩
  simp [String.data_append, List.append_assoc]

/-! ## Lemmas on the reads of `err` -/

theorem errBlock_mode (env : Env) (b : Bool) (own : Option String) (stage : Stage) :
    errBlock { env with disableChunked := b } own stage = errBlock env own stage := rfl

theorem errBlock_own (env : Env) (own : Option String) (stage : Stage)
    (h : env.goStore = none) :
    errBlock env own stage =
      match own with
      | none => .skipped
      | some e => .reported e e := by
  unfold errBlock readErr
  cases own <;> simp [h]

theorem errBlock_own_reported (env : Env) (own : Option String) (stage : Stage)
    (text printed : String) (h : env.goStore = none) :
    errBlock env own stage = .reported text printed ↔ own = some text ∧ printed = text := by
  rw [errBlock_own env own stage h]
  cases own with
  | none => simp
  | some e =>
    simp only [Block.reported.injEq, Option.some.injEq]
    constructor
    · rintro ⟨rfl, rfl⟩
      exact ⟨rfl, rfl⟩
    · rintro ⟨rfl, rfl⟩
      exact ⟨rfl, rfl⟩

theorem errBlock_own_panicked (env : Env) (own : Option String) (stage : Stage)
    (h : env.goStore = none) : errBlock env own stage ≠ .panicked := by
  rw [errBlock_own env own stage h]
  cases own <;> simp

theorem errBlock_own_skipped (env : Env) (own : Option String) (stage : Stage)
    (h : env.goStore = none) : errBlock env own stage = .skipped ↔ own = none := by
  rw [errBlock_own env own stage h]
  cases own <;> simp

/-! ## The handler: counters and responses -/

/-- A request is forwarded only on the path on which its body was read without
error and decoded to a record of the supported version. -/
theorem forwarded_valid (env : Env) (r : Request) (req : OutRequest)
    (hfwd : Event.Do req ∈ handler env r) :
    ∃ rb msg, r.Body = some rb ∧ rb.err = none ∧ env.Unmarshal rb.data = .ok msg ∧
      msg.Version = supportedWebhookVersion := by
  revert hfwd
  unfold handler
  cases env.disableChunked <;> dsimp only <;>
  (repeat' split) <;> intro hfwd <;>
  simp_all [ReadAll]

/-- Claim C1: on every run of `handler`, whatever the request, whatever the
collaborators answer and wherever the goroutine's store into `err` lands,
Received is incremented exactly once and Invalid and Errored together at most
once; every error written to the caller comes with one such increment, and
the two numbers agree unless the handler panics; a run that writes no error
and does not panic increments neither Invalid nor Errored. -/
theorem handler_counters (env : Env) (r : Request) :
    incs .notificationsReceived (handler env r) = 1 ∧
    incs .notificationsInvalid (handler env r) + incs .notificationsErrored (handler env r) ≤ 1 ∧
    (errorsWritten (handler env r)).length ≤
      incs .notificationsInvalid (handler env r) + incs .notificationsErrored (handler env r) ∧
    (Event.panic ∉ handler env r →
      incs .notificationsInvalid (handler env r) + incs .notificationsErrored (handler env r)
        = (errorsWritten (handler env r)).length) ∧
    (errorsWritten (handler env r) = [] → Event.panic ∉ handler env r →
      incs .notificationsInvalid (handler env r) = 0 ∧
      incs .notificationsErrored (handler env r) = 0) := by
  unfold handler
  cases env.disableChunked <;> dsimp only <;> (repeat' split) <;>
  simp [incs, errorsWritten, List.countP_cons, List.countP_append]

/-- Claim C1, at the sample payload relayed to a target answering 200. -/
theorem handler_counters_witness :
    errorsWritten (handler (sampleEnv false (some sampleTemplate) (answered 200 "OK\n"))
      (requestWith payloadV4)) = [] ∧
    incs .notificationsReceived (handler (sampleEnv false (some sampleTemplate)
      (answered 200 "OK\n")) (requestWith payloadV4)) = 1 ∧
    incs .notificationsInvalid (handler (sampleEnv false (some sampleTemplate)
      (answered 200 "OK\n")) (requestWith payloadV4)) = 0 ∧
    incs .notificationsErrored (handler (sampleEnv false (some sampleTemplate)
      (answered 200 "OK\n")) (requestWith payloadV4)) = 0 :=
  have h := handler_counters (sampleEnv false (some sampleTemplate) (answered 200 "OK\n"))
    (requestWith payloadV4)
  ⟨by decide, h.1, (h.2.2.2.2 (by decide) (by decide)).1,
    (h.2.2.2.2 (by decide) (by decide)).2⟩

/-- Claim C2, as stated, fails when the downstream body cannot be read: the
sample payload is forwarded, the target answers 503 and its body breaks off
with "unexpected EOF"; the handler answers 500 and increments Errored once,
but the error text is the read error and holds neither the status code nor
the body. -/
theorem handler_non2xx_unread_body :
    Event.Do (outboundWith (.pipeReader "text: alertmanager2es at 2017-02-02T16:51:13Z")) ∈
      handler (sampleEnv false (some sampleTemplate) (answeredBroken 503 "Serv" "unexpected EOF"))
        (requestWith payloadV4) ∧
    (sampleEnv false (some sampleTemplate) (answeredBroken 503 "Serv" "unexpected EOF")).Do
      (outboundWith (.pipeReader "text: alertmanager2es at 2017-02-02T16:51:13Z")) =
        .ok ⟨503, ⟨"Serv", some "unexpected EOF"⟩⟩ ∧
    503 / 100 ≠ 2 ∧
    errorsWritten (handler (sampleEnv false (some sampleTemplate)
      (answeredBroken 503 "Serv" "unexpected EOF")) (requestWith payloadV4)) =
        [("unexpected EOF", StatusInternalServerError)] ∧
    ¬ occursIn (toString 503) "unexpected EOF" ∧
    ¬ occursIn "Serv" "unexpected EOF" :=
  ⟨by decide, rfl, by decide, by decide, by decide, by decide⟩

/-- Claim C2, amended: when a request is forwarded (which happens only after it
decoded with the supported version) and the downstream response has a status
code outside 200..299, Errored is incremented exactly once and Invalid not at
all, wherever the goroutine's store into `err` lands; when the handler reads
only its own stores of `err`, the caller gets HTTP 500, and the error text
holds the status code and the body if the downstream body is read without
error, and is the read error if reading the body fails. -/
theorem handler_non2xx (env : Env) (r : Request) (req : OutRequest) (resp : Response)
    (hfwd : Event.Do req ∈ handler env r) (hresp : env.Do req = .ok resp)
    (hcode : resp.StatusCode < 200 ∨ 299 < resp.StatusCode) :
    incs .notificationsErrored (handler env r) = 1 ∧
    incs .notificationsInvalid (handler env r) = 0 ∧
    (env.goStore = none →
      statusSeen (handler env r) = StatusInternalServerError ∧
      (resp.Body.err = none →
        ∃ text, errorsWritten (handler env r) = [(text, StatusInternalServerError)] ∧
          occursIn (toString resp.StatusCode) text ∧ occursIn resp.Body.data text) ∧
      (∀ e, resp.Body.err = some e →
        errorsWritten (handler env r) = [(e, StatusInternalServerError)])) := by
  have h2 : resp.StatusCode / 100 ≠ 2 := by omega
  refine ⟨?_, ?_, ?_⟩
  · revert hfwd
    unfold handler
    cases env.disableChunked <;> dsimp only <;>
    (repeat' split) <;> intro hfwd <;>
    simp_all [incs, List.countP_cons, List.countP_append]
  · revert hfwd
    unfold handler
    cases env.disableChunked <;> dsimp only <;>
    (repeat' split) <;> intro hfwd <;>
    simp_all [incs, List.countP_cons, List.countP_append]
  · intro hg
    revert hfwd
    unfold handler
    cases env.disableChunked <;> dsimp only <;>
    (repeat' split) <;> intro hfwd <;>
    simp_all [errorsWritten, statusSeen, ReadAll, statusError_code, statusError_body,
      errBlock_own_reported _ _ _ _ _ hg, errBlock_own_panicked _ _ _ hg,
      errBlock_own_skipped _ _ _ hg]

/-- Claim C2, at the sample payload relayed to a target answering 404. -/
theorem handler_non2xx_witness :
    incs .notificationsErrored (handler (sampleEnv false (some sampleTemplate)
      (answered 404 "404 page not found\n")) (requestWith payloadV4)) = 1 ∧
    incs .notificationsInvalid (handler (sampleEnv false (some sampleTemplate)
      (answered 404 "404 page not found\n")) (requestWith payloadV4)) = 0 ∧
    statusSeen (handler (sampleEnv false (some sampleTemplate)
      (answered 404 "404 page not found\n")) (requestWith payloadV4)) = 500 :=
  have h := handler_non2xx (sampleEnv false (some sampleTemplate)
    (answered 404 "404 page not found\n")) (requestWith payloadV4)
    (outboundWith (.pipeReader "text: alertmanager2es at 2017-02-02T16:51:13Z"))
    ⟨404, ⟨"404 page not found\n", none⟩⟩ (by decide) rfl (by decide)
  ⟨h.1, h.2.1, (h.2.2 rfl).1⟩

/-- When the handler reads only its own stores of `err`, a forwarded request
whose downstream response, status and body, is received with a status code in
200..299 ends without an error written and with only Received incremented. -/
theorem success_on_own_stores (env : Env) (r : Request) (req : OutRequest) (resp : Response)
    (hg : env.goStore = none)
    (hfwd : Event.Do req ∈ handler env r) (hresp : env.Do req = .ok resp)
    (hbody : resp.Body.err = none)
    (hcode : 200 ≤ resp.StatusCode ∧ resp.StatusCode ≤ 299) :
    errorsWritten (handler env r) = [] ∧ statusSeen (handler env r) = StatusOK ∧
    incs .notificationsReceived (handler env r) = 1 ∧
    incs .notificationsInvalid (handler env r) = 0 ∧
    incs .notificationsErrored (handler env r) = 0 := by
  have h2 : resp.StatusCode / 100 = 2 := by omega
  revert hfwd
  unfold handler
  cases env.disableChunked <;> dsimp only <;>
  (repeat' split) <;> intro hfwd <;>
  simp_all [incs, errorsWritten, statusSeen, List.countP_cons, ReadAll,
    errBlock_own_reported _ _ _ _ _ hg, errBlock_own_panicked _ _ _ hg,
    errBlock_own_skipped _ _ _ hg]

/-- Claim C3, evaluated: in streamed mode the sample payload is forwarded and
the target answers 200 with a body that is read without error, but it answers
before it has consumed the request body; the goroutine's execution ends with
the error of a write to the closed pipe and its store into `err` lands before
the test at line 198. The handler answers 500 with that error and increments
Errored. -/
theorem handler_success_raced :
    Event.Do (outboundWith (.pipeReader "text: alertmanager2es at 2017-02-02T16:51:13Z")) ∈
      handler racedEnv (requestWith payloadV4) ∧
    racedEnv.Do (outboundWith (.pipeReader "text: alertmanager2es at 2017-02-02T16:51:13Z")) =
      .ok ⟨200, ⟨"OK\n", none⟩⟩ ∧
    errorsWritten (handler racedEnv (requestWith payloadV4)) =
      [("io: read/write on closed pipe", StatusInternalServerError)] ∧
    statusSeen (handler racedEnv (requestWith payloadV4)) = 500 ∧
    incs .notificationsErrored (handler racedEnv (requestWith payloadV4)) = 1 :=
  ⟨by decide, rfl, by decide, by decide, by decide⟩

/-- Claim C4: when the request body is read and does not decode to a record of
the supported version "4" (another version, no version field, or a decode
failure), the caller gets HTTP 400, Invalid is incremented exactly once,
Errored not at all, no template is executed and no outbound request is
issued. -/
theorem handler_bad_version (env : Env) (r : Request) (rb : ReadCloser)
    (hb : r.Body = some rb) (hr : rb.err = none)
    (hv : ∀ msg, env.Unmarshal rb.data = .ok msg → msg.Version ≠ supportedWebhookVersion) :
    statusSeen (handler env r) = StatusBadRequest ∧
    incs .notificationsInvalid (handler env r) = 1 ∧
    incs .notificationsErrored (handler env r) = 0 ∧
    requestsSent (handler env r) = [] ∧ recordsRendered (handler env r) = [] := by
  unfold handler
  simp only [hb, ReadAll, hr]
  cases hd : env.Unmarshal rb.data with
  | error e =>
    simp [incs, errorsWritten, statusSeen, requestsSent, recordsRendered, List.countP_cons]
  | ok msg =>
    have := hv msg hd
    simp [this, incs, errorsWritten, statusSeen, requestsSent, recordsRendered,
      List.countP_cons]

/-- Claim C4, at a payload without a version field. -/
theorem handler_bad_version_witness :
    statusSeen (handler (sampleEnv false (some sampleTemplate) (answered 200 "OK\n"))
      (requestWith payloadNoVersion)) = 400 ∧
    incs .notificationsInvalid (handler (sampleEnv false (some sampleTemplate)
      (answered 200 "OK\n")) (requestWith payloadNoVersion)) = 1 ∧
    incs .notificationsErrored (handler (sampleEnv false (some sampleTemplate)
      (answered 200 "OK\n")) (requestWith payloadNoVersion)) = 0 ∧
    requestsSent (handler (sampleEnv false (some sampleTemplate) (answered 200 "OK\n"))
      (requestWith payloadNoVersion)) = [] ∧
    recordsRendered (handler (sampleEnv false (some sampleTemplate) (answered 200 "OK\n"))
      (requestWith payloadNoVersion)) = [] :=
  handler_bad_version (sampleEnv false (some sampleTemplate) (answered 200 "OK\n"))
    (requestWith payloadNoVersion) ⟨payloadNoVersion, none⟩ rfl rfl
    (fun msg hm => by
      have h : sampleUnmarshal payloadNoVersion = .ok msg := hm
      have e : msg = recordOf "alertmanager2es" "" "" "" := by
        simp [sampleUnmarshal, payloadNoVersion, payloadV3, payloadV4] at h
        exact h.symm
      subst e
      decide)

/-- Claim C5: a request without a body (`r.Body` is nil, or the body is read
without error and is empty, which the JSON decoder rejects) gets HTTP 400,
increments Invalid exactly once and Errored not at all, and causes no
outbound request. -/
theorem handler_no_body (env : Env) (r : Request)
    (hjson : ∃ e, env.Unmarshal "" = .error e)
    (hempty : r.Body = none ∨ ∃ rb, r.Body = some rb ∧ ReadAll rb = ("", none)) :
    statusSeen (handler env r) = StatusBadRequest ∧
    incs .notificationsInvalid (handler env r) = 1 ∧
    incs .notificationsErrored (handler env r) = 0 ∧
    requestsSent (handler env r) = [] := by
  obtain ⟨e, he⟩ := hjson
  unfold handler
  rcases hempty with h | ⟨rb, h, hra⟩
  · simp [h, incs, errorsWritten, statusSeen, requestsSent, List.countP_cons]
  · simp [h, hra, he, incs, errorsWritten, statusSeen, requestsSent, List.countP_cons]

/-- Claim C5, at a request whose body is present and empty. -/
theorem handler_no_body_witness :
    statusSeen (handler (sampleEnv false (some sampleTemplate) (answered 200 "OK\n"))
      (requestWith "")) = 400 ∧
    incs .notificationsInvalid (handler (sampleEnv false (some sampleTemplate)
      (answered 200 "OK\n")) (requestWith "")) = 1 ∧
    incs .notificationsErrored (handler (sampleEnv false (some sampleTemplate)
      (answered 200 "OK\n")) (requestWith "")) = 0 ∧
    requestsSent (handler (sampleEnv false (some sampleTemplate) (answered 200 "OK\n"))
      (requestWith "")) = [] :=
  handler_no_body (sampleEnv false (some sampleTemplate) (answered 200 "OK\n"))
    (requestWith "") ⟨"unexpected end of JSON input", rfl⟩ (Or.inr ⟨⟨"", none⟩, rfl, rfl⟩)

/-- Claim C6, evaluated: with a template whose execution fails after its first
writes and a target answering 200, in buffered mode the handler forwards the
truncated output, writes no error (the caller sees 200) and does not increment
Errored; so it does in streamed mode when it reads only its own stores of
`err`. -/
theorem handler_render_error_dropped :
    (brokenTemplate.exec stampedRecord).2 ≠ none ∧
    requestsSent (handler (sampleEnv true (some brokenTemplate) (answered 200 "OK\n"))
      (requestWith payloadV4)) = [outboundWith (.buffer "text: alertmanager2es")] ∧
    statusSeen (handler (sampleEnv true (some brokenTemplate) (answered 200 "OK\n"))
      (requestWith payloadV4)) = 200 ∧
    incs .notificationsErrored (handler (sampleEnv true (some brokenTemplate)
      (answered 200 "OK\n")) (requestWith payloadV4)) = 0 ∧
    requestsSent (handler (sampleEnv false (some brokenTemplate) (answered 200 "OK\n"))
      (requestWith payloadV4)) = [outboundWith (.pipeReader "text: alertmanager2es")] ∧
    statusSeen (handler (sampleEnv false (some brokenTemplate) (answered 200 "OK\n"))
      (requestWith payloadV4)) = 200 ∧
    incs .notificationsErrored (handler (sampleEnv false (some brokenTemplate)
      (answered 200 "OK\n")) (requestWith payloadV4)) = 0 := by
  decide

/-! ## The handler: what is rendered and what is posted -/

/-- Claim C9: for a request that decodes to a record of the supported version,
with a template that parses and a target URL that parses, every POST the
handler issues carries, in buffered mode, the buffer and, in streamed mode,
the read end of the pipe, both holding the output of the template for the
stamped record, so the bodies posted in the two modes are byte-identical; when
the handler reads only its own stores of `err`, exactly one POST is issued in
either mode. -/
theorem handler_body_modes (env : Env) (r : Request) (rb : ReadCloser) (msg : notification)
    (tmpl : Template) (hb : r.Body = some rb) (hr : rb.err = none)
    (hd : env.Unmarshal rb.data = .ok msg) (hv : msg.Version = supportedWebhookVersion)
    (ht : env.ParseFiles env.postTemplate = some tmpl)
    (hu : env.ParseURL env.targetURL = none) :
    (∀ q ∈ requestsSent (handler { env with disableChunked := true } r),
      q.Body = .buffer (output tmpl { msg with Timestamp := env.Format env.Now RFC3339 })) ∧
    (∀ q ∈ requestsSent (handler { env with disableChunked := false } r),
      q.Body = .pipeReader (output tmpl { msg with Timestamp := env.Format env.Now RFC3339 })) ∧
    (requestsSent (handler { env with disableChunked := true } r)).map (fun q => q.Body.bytes) =
      (requestsSent (handler { env with disableChunked := false } r)).map
        (fun q => q.Body.bytes) ∧
    (env.goStore = none →
      (requestsSent (handler { env with disableChunked := true } r)).map (fun q => q.Body) =
        [.buffer (output tmpl { msg with Timestamp := env.Format env.Now RFC3339 })] ∧
      (requestsSent (handler { env with disableChunked := false } r)).map (fun q => q.Body) =
        [.pipeReader (output tmpl { msg with Timestamp := env.Format env.Now RFC3339 })]) := by
  unfold handler
  simp only [hb, ReadAll, hr, hd, hv, ht, NewRequest, hu, errBlock_mode]
  refine ⟨?_, ?_, ?_, ?_⟩
  · simp only [reduceIte]
    (repeat' split) <;> simp [requestsSent, Execute_buffer]
  · simp only [Bool.false_eq_true, reduceIte]
    (repeat' split) <;> simp [requestsSent, Execute_pipe]
  · simp only [Bool.false_eq_true, reduceIte]
    (repeat' split) <;>
    simp_all [requestsSent, Execute_buffer, Execute_pipe, ReqBody.bytes]
  · intro hg
    simp only [Bool.false_eq_true, reduceIte, errBlock_own _ _ _ hg]
    refine ⟨?_, ?_⟩ <;>
    (simp [requestsSent, Execute_buffer, Execute_pipe]) <;>
    (repeat' split) <;> simp [requestsSent]

/-- Claim C9, at the sample payload and the sample template. -/
theorem handler_body_modes_witness :
    (requestsSent (handler (sampleEnv true (some sampleTemplate) (answered 200 "OK\n"))
      (requestWith payloadV4))).map (fun q => q.Body.bytes) =
    (requestsSent (handler (sampleEnv false (some sampleTemplate) (answered 200 "OK\n"))
      (requestWith payloadV4))).map (fun q => q.Body.bytes) :=
  (handler_body_modes (sampleEnv false (some sampleTemplate) (answered 200 "OK\n"))
    (requestWith payloadV4) ⟨payloadV4, none⟩
    (recordOf "alertmanager2es" "firing" "4" "2001-02-03T04:05:06Z") sampleTemplate
    rfl rfl rfl rfl rfl rfl).2.2.1

/-- Claim C10: for a request that decodes to a record of the supported version,
every record handed to a template execution carries as Timestamp the current
time in the RFC 3339 layout, whatever the decoded record carried, and agrees
with the decoded record in every other field; such an execution takes place
whenever the template parses. -/
theorem handler_timestamp (env : Env) (r : Request) (rb : ReadCloser) (msg : notification)
    (hb : r.Body = some rb) (hr : rb.err = none)
    (hd : env.Unmarshal rb.data = .ok msg) (hv : msg.Version = supportedWebhookVersion) :
    (∀ m ∈ recordsRendered (handler env r),
      m.Timestamp = env.Format env.Now RFC3339 ∧
      m = { msg with Timestamp := env.Format env.Now RFC3339 }) ∧
    (env.ParseFiles env.postTemplate ≠ none → recordsRendered (handler env r) ≠ []) := by
  unfold handler
  simp only [hb, ReadAll, hr, hd, hv]
  cases env.disableChunked <;> cases env.ParseFiles env.postTemplate <;>
  simp [recordsRendered] <;> (repeat' split) <;>
  simp [recordsRendered]

/-- Claim C10, at the sample payload, whose client timestamp is replaced. -/
theorem handler_timestamp_witness :
    recordsRendered (handler (sampleEnv false (some sampleTemplate) (answered 200 "OK\n"))
      (requestWith payloadV4)) = [stampedRecord] ∧
    stampedRecord.Timestamp = "2017-02-02T16:51:13Z" :=
  ⟨by decide,
    ((handler_timestamp (sampleEnv false (some sampleTemplate) (answered 200 "OK\n"))
      (requestWith payloadV4) ⟨payloadV4, none⟩
      (recordOf "alertmanager2es" "firing" "4" "2001-02-03T04:05:06Z")
      rfl rfl rfl rfl).1 stampedRecord (by decide)).1⟩

/-! ## The admission gate: invariants -/

theorem countP_set (p : Phase → Bool) (l : List Phase) (i : Nat) (a b : Phase)
    (hi : l[i]? = some a) :
    (l.set i b).countP p + (if p a then 1 else 0) = l.countP p + (if p b then 1 else 0) := by
  induction l generalizing i with
  | nil => simp at hi
  | cons x xs ih =>
    cases i with
    | zero =>
      simp at hi
      subst hi
      simp [List.countP_cons]
      omega
    | succ j =>
      simp at hi
      have := ih j hi
      simp [List.countP_cons]
      omega

theorem step_sema {ρ α : Type} (h : ρ → Option α) (n : Nat) (reqs : List ρ) (s s' : Gate)
    (a : Action) (hs : maxClientsFunc h n reqs s a = some s') :
    s'.sema + holding s.phase = s.sema + holding s'.phase ∧ (s.sema ≤ n → s'.sema ≤ n) := by
  cases a with
  | send i =>
    simp only [maxClientsFunc] at hs
    split at hs
    · rename_i hc
      simp at hs
      subst hs
      have := countP_set (fun p => decide (p = .inH ∨ p = .atRecv)) s.phase i .atSend .inH hc.1
      simp at this
      simp [holding]
      omega
    · simp at hs
  | serve i =>
    simp only [maxClientsFunc] at hs
    split at hs
    · rename_i r hp hr
      split at hs
      · simp at hs
        subst hs
        have := countP_set (fun p => decide (p = .inH ∨ p = .atRecv)) s.phase i .inH .atRecv hp
        simp at this
        simp [holding]
        omega
      · simp at hs
    · simp at hs
  | recv i =>
    simp only [maxClientsFunc] at hs
    split at hs
    · rename_i hc
      simp at hs
      subst hs
      have := countP_set (fun p => decide (p = .inH ∨ p = .atRecv)) s.phase i .atRecv .returned hc.1
      simp at this
      simp [holding]
      omega
    · simp at hs

theorem run_sema {ρ α : Type} (h : ρ → Option α) (n : Nat) (reqs : List ρ) (as : List Action)
    (s s' : Gate) (hr : run (maxClientsFunc h n reqs) s as = some s') :
    s'.sema + holding s.phase = s.sema + holding s'.phase ∧ (s.sema ≤ n → s'.sema ≤ n) := by
  induction as generalizing s with
  | nil => simp [run] at hr; subst hr; simp
  | cons a as ih =>
    simp only [run] at hr
    split at hr
    · simp at hr
    · rename_i s1 hs1
      have h1 := step_sema h n reqs s s1 a hs1
      have h2 := ih s1 hr
      omega

theorem step_script {ρ α : Type} (h : ρ → Option α) (n : Nat) (reqs : List ρ) (s s' : Gate)
    (a : Action) (hs : maxClientsFunc h n reqs s a = some s') (i : Nat) :
    script i s'.phase[i]? = script i s.phase[i]? ++ history i [a] := by
  cases a with
  | send j =>
    simp only [maxClientsFunc] at hs
    split at hs
    · rename_i hc
      simp at hs
      subst hs
      by_cases hji : j = i
      · subst hji
        have hlt : j < s.phase.length := by
          have := hc.1
          exact (List.getElem?_eq_some_iff.mp this).1
        simp [List.getElem?_set, hlt, hc.1, script, history, Action.req]
      · simp [List.getElem?_set, hji, script, history, Action.req]
    · simp at hs
  | serve j =>
    simp only [maxClientsFunc] at hs
    split at hs
    · rename_i r hp hr
      split at hs
      · simp at hs
        subst hs
        by_cases hji : j = i
        · subst hji
          have hlt : j < s.phase.length := (List.getElem?_eq_some_iff.mp hp).1
          simp [List.getElem?_set, hlt, hp, script, history, Action.req]
        · simp [List.getElem?_set, hji, script, history, Action.req]
      · simp at hs
    · simp at hs
  | recv j =>
    simp only [maxClientsFunc] at hs
    split at hs
    · rename_i hc
      simp at hs
      subst hs
      by_cases hji : j = i
      · subst hji
        have hlt : j < s.phase.length := (List.getElem?_eq_some_iff.mp hc.1).1
        simp [List.getElem?_set, hlt, hc.1, script, history, Action.req]
      · simp [List.getElem?_set, hji, script, history, Action.req]
    · simp at hs

theorem run_script {ρ α : Type} (h : ρ → Option α) (n : Nat) (reqs : List ρ) (as : List Action)
    (s s' : Gate) (hr : run (maxClientsFunc h n reqs) s as = some s') (i : Nat) :
    script i s'.phase[i]? = script i s.phase[i]? ++ history i as := by
  induction as generalizing s with
  | nil => simp [run] at hr; subst hr; simp [history]
  | cons a as ih =>
    simp only [run] at hr
    split at hr
    · simp at hr
    · rename_i s1 hs1
      have h1 := step_script h n reqs s s1 a hs1 i
      have h2 := ih s1 hr
      rw [h2, h1, List.append_assoc]
      congr 1
      simp only [history, List.filter_cons]
      split <;> simp

theorem run_append (step : Gate → Action → Option Gate) (as bs : List Action) (s s1 s2 : Gate)
    (h1 : run step s as = some s1) (h2 : run step s1 bs = some s2) :
    run step s (as ++ bs) = some s2 := by
  induction as generalizing s with
  | nil => simp [run] at h1; subst h1; simpa using h2
  | cons a as ih =>
    simp only [run, List.cons_append] at h1 ⊢
    split at h1
    · simp at h1
    · rename_i s' hs'
      exact ih s' h1

theorem holding_init (k : Nat) : holding (Gate.init k).phase = 0 := by
  simp [holding, Gate.init, List.countP_replicate]

theorem inside_le_holding (ps : List Phase) : inside ps ≤ holding ps := by
  unfold inside holding
  apply List.countP_mono_left
  intro p _ hp
  simp at hp ⊢
  exact Or.inl hp

theorem wait_until_recv {ρ α : Type} (h : ρ → Option α) (n : Nat) (reqs : List ρ)
    (bs : List Action) (s s' : Gate) (i : Nat) (hfull : s.sema = n)
    (hi : s.phase[i]? = some .atSend) (hno : ∀ j, Action.recv j ∉ bs)
    (hr : run (maxClientsFunc h n reqs) s bs = some s') :
    s'.phase[i]? = some .atSend := by
  induction bs generalizing s with
  | nil => simp [run] at hr; subst hr; exact hi
  | cons b bs ih =>
    simp only [run] at hr
    split at hr
    · simp at hr
    · rename_i s1 hs1
      have hno' : ∀ j, Action.recv j ∉ bs := fun j hj => hno j (List.mem_cons_of_mem _ hj)
      cases b with
      | send j => simp [maxClientsFunc, hfull] at hs1
      | recv j => exact absurd (List.mem_cons_self _ _) (hno j)
      | serve j =>
        simp only [maxClientsFunc] at hs1
        split at hs1
        · rename_i r hp hrq
          split at hs1
          · simp at hs1
            subst hs1
            have hji : j ≠ i := by
              intro e; subst e; rw [hp] at hi; simp at hi
            exact ih ⟨s.sema, s.phase.set j .atRecv⟩ hfull
              (by simp [List.getElem?_set, hji, hi]) hno' hr
          · simp at hs1
        · simp at hs1

/-- Claim C7: in every state reachable from the initial one, at most `n`
requests are executing inside `h`; when `n` requests hold a slot no send can
complete, and a request waiting at its send stays there along every
continuation in which no request releases its slot. -/
theorem maxClientsFunc_bound {ρ α : Type} (h : ρ → Option α) (n : Nat) (reqs : List ρ)
    (as : List Action) (s : Gate)
    (hrun : run (maxClientsFunc h n reqs) (Gate.init reqs.length) as = some s) :
    inside s.phase ≤ n ∧
    (holding s.phase = n → ∀ i, maxClientsFunc h n reqs s (.send i) = none) ∧
    (∀ (i : Nat) (bs : List Action) (s' : Gate), holding s.phase = n →
      s.phase[i]? = some .atSend →
      (∀ j, Action.recv j ∉ bs) → run (maxClientsFunc h n reqs) s bs = some s' →
      s'.phase[i]? = some .atSend) := by
  have hs := run_sema h n reqs as (Gate.init reqs.length) s hrun
  have h0 := holding_init reqs.length
  have hsema : s.sema = holding s.phase := by
    have : (Gate.init reqs.length).sema = 0 := rfl
    omega
  have hle : s.sema ≤ n := hs.2 (by simp [Gate.init])
  refine ⟨?_, ?_, ?_⟩
  · have := inside_le_holding s.phase
    omega
  · intro hfull i
    have : ¬ s.sema < n := by omega
    simp [maxClientsFunc, this]
  · intro i bs s' hfull hi hno hr
    exact wait_until_recv h n reqs bs s s' i (by omega) hi hno hr

/-- Claim C7, with capacity 1 and two requests: once the first is inside the
handler the other one cannot enter. -/
theorem maxClientsFunc_bound_witness :
    run (maxClientsFunc (handler.ServeHTTP (sampleEnv false (some sampleTemplate)
      (answered 200 "OK\n"))) 1 [requestWith payloadV4, requestWith payloadV3])
      (Gate.init 2) [.send 0] = some ⟨1, [.inH, .atSend]⟩ ∧
    inside [Phase.inH, Phase.atSend] ≤ 1 ∧
    maxClientsFunc (handler.ServeHTTP (sampleEnv false (some sampleTemplate)
      (answered 200 "OK\n"))) 1 [requestWith payloadV4, requestWith payloadV3]
      ⟨1, [.inH, .atSend]⟩ (.send 1) = none :=
  have h := maxClientsFunc_bound (handler.ServeHTTP (sampleEnv false (some sampleTemplate)
    (answered 200 "OK\n"))) 1 [requestWith payloadV4, requestWith payloadV3]
    [.send 0] ⟨1, [.inH, .atSend]⟩ (by decide)
  ⟨by decide, h.1, h.2.1 (by decide) 1⟩

/-- Claim C8: in every state reachable from the initial one the channel holds
exactly one token per request that has sent and not yet received; the actions
of each request are, in order, an initial part of "send, serve, receive" and
all three once it has returned, so each invocation acquires one slot before
`h` runs and releases one after `h` ends, whatever `h` returned; the deferred
receive can always complete once `h` has returned; and whenever the number of
requests in flight is back to an earlier value, so is the number of tokens. -/
theorem maxClientsFunc_slots {ρ α : Type} (h : ρ → Option α) (n : Nat) (reqs : List ρ)
    (as : List Action) (s : Gate)
    (hrun : run (maxClientsFunc h n reqs) (Gate.init reqs.length) as = some s) :
    s.sema = holding s.phase ∧
    (∀ i, history i as = script i s.phase[i]?) ∧
    (∀ i, s.phase[i]? = some .atRecv → (maxClientsFunc h n reqs s (.recv i)).isSome) ∧
    (∀ (bs : List Action) (s' : Gate), run (maxClientsFunc h n reqs) s bs = some s' →
      holding s'.phase = holding s.phase → s'.sema = s.sema) := by
  have hs := run_sema h n reqs as (Gate.init reqs.length) s hrun
  have h0 := holding_init reqs.length
  have hsema : s.sema = holding s.phase := by
    have : (Gate.init reqs.length).sema = 0 := rfl
    omega
  refine ⟨hsema, ?_, ?_, ?_⟩
  · intro i
    have := run_script h n reqs as (Gate.init reqs.length) s hrun i
    have hinit : script i (Gate.init reqs.length).phase[i]? = [] := by
      simp only [Gate.init]
      by_cases hi : i < reqs.length
      · simp [List.getElem?_replicate, hi, script]
      · simp [List.getElem?_replicate, hi, script]
    rw [hinit] at this
    simpa using this.symm
  · intro i hi
    have hpos : 0 < holding s.phase := by
      unfold holding
      apply List.countP_pos_iff.mpr
      exact ⟨.atRecv, List.getElem?_mem hi, by simp⟩
    have : 0 < s.sema := by omega
    simp [maxClientsFunc, hi, this]
  · intro bs s' hr hh
    have := run_sema h n reqs bs s s' hr
    omega

/-- Claim C8, with capacity 1 and two requests served one after the other, the
first relayed with success and the second rejected for its version. -/
theorem maxClientsFunc_slots_witness :
    run (maxClientsFunc (handler.ServeHTTP (sampleEnv false (some sampleTemplate)
      (answered 200 "OK\n"))) 1 [requestWith payloadV4, requestWith payloadV3])
      (Gate.init 2) [.send 0, .serve 0, .recv 0, .send 1, .serve 1, .recv 1] =
        some ⟨0, [.returned, .returned]⟩ ∧
    (0 : Nat) = holding [Phase.returned, Phase.returned] ∧
    history 1 [.send 0, .serve 0, .recv 0, .send 1, .serve 1, .recv 1] =
      [.send 1, .serve 1, .recv 1] :=
  have h := maxClientsFunc_slots (handler.ServeHTTP (sampleEnv false (some sampleTemplate)
    (answered 200 "OK\n"))) 1 [requestWith payloadV4, requestWith payloadV3]
    [.send 0, .serve 0, .recv 0, .send 1, .serve 1, .recv 1] ⟨0, [.returned, .returned]⟩
    (by decide)
  ⟨by decide, h.1, h.2.1 1⟩

end Gawa
